import Mathlib

/-!
# Verification of the estate_skewness acquisition and aggregation pipeline

Shallow embedding of the repository's core components:

* `src/tile_utils.py` — slippy-map tile enumeration (`deg2tile`, `get_tiles_for_bbox`);
* `src/data_fetcher.py` — JSON file cache (`_cache_key`, `_read_cache`, `_write_cache`),
  the old-scheme cache migration (`_migrate_old_pref_cache`), and the three acquisition
  tasks (`fetch_municipalities`, `fetch_all_transactions`, `fetch_official_prices`);
* `src/data_processor.py` — deviation-ratio arithmetic (`_compute_deviation_ratios`)
  and the point-in-polygon assignment used by `_compute_official_stats`;
* `src/config.py` — the constants the fetcher closes over.

Conventions of the embedding:

* A raw record (a Python dict of remote-source fields) is an association list
  `Rec := List (String × V)` over a small value type `V` (string / rational number /
  null).  `recGet`/`recSet` model `dict.get` and item assignment.
* The external HTTP client (`api_client.ReinfolibClient`, out of scope per the spec)
  is a function parameter returning `Except Unit …`; `Except.error` models a raised
  `requests` exception.  Every invocation of the client bumps a call counter carried
  in the cache state, so "issues zero external calls" is a provable statement.
* The JSON file cache is a state `St` mapping key strings to payloads; a write
  shadows previous entries, modeling file overwrite.  `md5(...).hexdigest()[:12]`
  is modeled by an arbitrary function parameter `hashf : String → String`
  (instantiated with `id` in concrete witnesses); `json.dumps(params, sort_keys=True)`
  is modeled faithfully by `dumps (canon j)` below, including recursive key sorting
  and `ensure_ascii` escaping of non-ASCII characters.
* Latitude-to-tile-row conversion (`math.asinh`/`math.tan` over floats, line 11 of
  `tile_utils.py`) is transcendental float arithmetic; the corner map is therefore a
  parameter `d2t` of the tile enumerator, while the purely rational x-computation of
  line 10 is embedded exactly as `deg2tile_x`, with Python `int()` modeled by
  truncation toward zero (`py_int`).
-/

open scoped List

/-- A JSON-ish value stored in a raw record field. -/
inductive V where
  | str : String → V
  | num : ℚ → V
  | null : V
deriving DecidableEq, Repr

/-- A raw record: an opaque mapping of remote-source fields (a Python dict). -/
abbrev Rec := List (String × V)

/-- `r.get(k)` on a dict: the first binding of `k`, if any. -/
def recGet (r : Rec) (k : String) : Option V :=
  (r.find? (fun p => p.1 == k)).map (fun p => p.2)

/-- `r[k] = v` on a dict: overwrite the binding of `k`, or append it. -/
def recSet (r : Rec) (k : String) (v : V) : Rec :=
  if r.any (fun p => p.1 == k) then
    r.map (fun p => if p.1 == k then (k, v) else p)
  else
    r ++ [(k, v)]

/-! ## JSON serialization with sorted keys (`json.dumps(params, sort_keys=True)`) -/

/-- A JSON parameter value, as passed to `DataFetcher._cache_key`. -/
inductive J where
  | str : String → J
  | num : ℚ → J
  | arr : List J → J
  | obj : List (String × J) → J

/-- Hexadecimal digit for `\uXXXX` escapes. -/
def hexDigit (n : Nat) : Char :=
  if n < 10 then Char.ofNat (48 + n) else Char.ofNat (87 + n)

/-- `\uXXXX` escape of a BMP character, as produced by `json.dumps` with
`ensure_ascii=True` (the default used by the source). -/
def uEscape (c : Char) : String :=
  let n := c.toNat
  String.mk ['\\', 'u', hexDigit (n / 4096 % 16), hexDigit (n / 256 % 16),
             hexDigit (n / 16 % 16), hexDigit (n % 16)]

/-- Escape one character of a JSON string literal. -/
def escChar (c : Char) : String :=
  if c = '"' then "\\\""
  else if c = '\\' then "\\\\"
  else if c.toNat < 32 ∨ 126 < c.toNat then uEscape c
  else String.singleton c

/-- A JSON string literal. -/
def dumpJStr (s : String) : String :=
  "\"" ++ String.join (s.toList.map escChar) ++ "\""

/-- Fractional decimal digits of `r / den` (with `r < den`), dropping the
trailing zeros, bounded by `fuel`.  All numbers serialized by the source have
short finite decimal expansions. -/
def fracDigits (fuel : Nat) (r den : Nat) : String :=
  match fuel with
  | 0 => ""
  | fuel + 1 =>
    let r10 := r * 10
    let d := r10 / den
    let r' := r10 % den
    if r' = 0 then toString d else toString d ++ fracDigits fuel r' den

/-- Decimal rendering of a rational, matching `json.dumps` output on the
integers and finite decimals appearing in the source's parameter dicts. -/
def qRepr (q : ℚ) : String :=
  if q.den = 1 then toString q.num
  else
    (if q.num < 0 then "-" else "")
      ++ toString (q.num.natAbs / q.den) ++ "."
      ++ fracDigits 30 (q.num.natAbs % q.den) q.den

/-- Insert an entry into an entry list sorted by key (stable). -/
def insEntry (kv : String × J) : List (String × J) → List (String × J)
  | [] => [kv]
  | b :: t => if kv.1 ≤ b.1 then kv :: b :: t else b :: insEntry kv t

/-- Stable insertion sort of object entries by key, modeling `sort_keys=True`. -/
def sortEntries : List (String × J) → List (String × J)
  | [] => []
  | kv :: t => insEntry kv (sortEntries t)

mutual

/-- Recursively sort every object's entries by key (the canonicalization that
`sort_keys=True` applies at every nesting level). -/
def canon : J → J
  | .str s => .str s
  | .num q => .num q
  | .arr xs => .arr (canonList xs)
  | .obj kvs => .obj (sortEntries (canonObj kvs))

/-- `canon` mapped over an array's elements. -/
def canonList : List J → List J
  | [] => []
  | x :: xs => canon x :: canonList xs

/-- `canon` mapped over an object's values. -/
def canonObj : List (String × J) → List (String × J)
  | [] => []
  | kv :: t => (kv.1, canon kv.2) :: canonObj t

end

mutual

/-- Serialize a JSON value with the default `json.dumps` separators. -/
def dumps : J → String
  | .str s => dumpJStr s
  | .num q => qRepr q
  | .arr xs => "[" ++ dumpsList xs ++ "]"
  | .obj kvs => "\x7b" ++ dumpsObj kvs ++ "\x7d"

/-- Comma-separated serialization of array elements. -/
def dumpsList : List J → String
  | [] => ""
  | [x] => dumps x
  | x :: xs => dumps x ++ ", " ++ dumpsList xs

/-- Comma-separated serialization of object entries. -/
def dumpsObj : List (String × J) → String
  | [] => ""
  | [kv] => dumpJStr kv.1 ++ ": " ++ dumps kv.2
  | kv :: t => dumpJStr kv.1 ++ ": " ++ dumps kv.2 ++ ", " ++ dumpsObj t

end

/-- `DataFetcher._cache_key` (src/data_fetcher.py lines 28-32):
`raw = json.dumps(params, sort_keys=True)`, then a hash of `raw` is appended to
the prefix.  `hashf` abstracts `hashlib.md5(raw.encode()).hexdigest()[:12]`. -/
def cache_key (hashf : String → String) (pre : String) (params : J) : String :=
  pre ++ "_" ++ hashf (dumps (canon params))

/-! ## Cache state -/

/-- The cache directory plus an external-call counter.  `cache` maps a key
string to the payload of `<key>.json`; newer writes shadow older ones,
modeling file overwrite.  `calls` counts invocations of the external client. -/
structure St where
  cache : List (String × List Rec)
  calls : Nat
deriving DecidableEq, Repr

/-- `DataFetcher._read_cache` (lines 34-40): return the payload if the keyed
file exists. -/
def read_cache (st : St) (k : String) : Option (List Rec) :=
  (st.cache.find? (fun p => p.1 == k)).map (fun p => p.2)

/-- `DataFetcher._write_cache` (lines 42-45): overwrite the keyed file with
the payload. -/
def write_cache (st : St) (k : String) (v : List Rec) : St :=
  ⟨(k, v) :: st.cache, st.calls⟩

/-- Record one external-call attempt. -/
def bump (st : St) : St :=
  ⟨st.cache, st.calls + 1⟩

/-! ## Configuration (src/config.py) -/

/-- `f"{i:02d}"` for the prefecture codes. -/
def pad2 (n : Nat) : String :=
  if n < 10 then "0" ++ toString n else toString n

/-- `config.PREF_CODES`: the 47 prefecture codes `"01" .. "47"`. -/
def PREF_CODES : List String :=
  (List.range 47).map (fun i => pad2 (i + 1))

/-- `config.TRANSACTION_YEARS`. -/
def TRANSACTION_YEARS : List Int := [2022, 2023, 2024, 2025]

/-- `config.TRANSACTION_QUARTERS`. -/
def TRANSACTION_QUARTERS : List Int := [1, 2, 3, 4]

/-- `config.OFFICIAL_PRICE_YEARS`. -/
def OFFICIAL_PRICE_YEARS : List Int := [2022, 2023, 2024, 2025]

/-- `config.TILE_ZOOM`. -/
def TILE_ZOOM : Nat := 13

/-- One entry of `config.REGION_BBOXES`. -/
structure Region where
  name : String
  north : ℚ
  south : ℚ
  west : ℚ
  east : ℚ
deriving DecidableEq, Repr

/-- `config.REGION_BBOXES`: the regional bounding boxes scanned for official
prices. -/
def REGION_BBOXES : List Region :=
  [⟨"北海道", 45.60, 41.30, 139.30, 145.90⟩,
   ⟨"東北", 41.60, 36.70, 139.00, 142.10⟩,
   ⟨"関東・甲信", 37.80, 34.80, 138.00, 141.00⟩,
   ⟨"北陸", 38.60, 35.80, 135.80, 140.10⟩,
   ⟨"東海", 35.70, 34.20, 136.40, 139.20⟩,
   ⟨"近畿", 35.80, 33.40, 134.00, 136.90⟩,
   ⟨"中国", 35.70, 33.70, 130.70, 134.50⟩,
   ⟨"四国", 34.40, 32.70, 131.90, 134.90⟩,
   ⟨"九州", 34.30, 30.90, 129.40, 132.10⟩,
   ⟨"南西諸島", 31.00, 27.50, 128.30, 131.50⟩,
   ⟨"沖縄", 27.50, 25.80, 126.50, 128.50⟩,
   ⟨"先島諸島", 25.80, 24.00, 122.90, 126.00⟩]

/-! ## Tile coordinate mapper (src/tile_utils.py) -/

/-- Python `int(…)` on a real: truncation toward zero. -/
def py_int (q : ℚ) : ℤ :=
  if 0 ≤ q then ⌊q⌋ else ⌈q⌉

/-- The x-component of `deg2tile` (line 10):
`x = int((lon + 180.0) / 360.0 * n)` with `n = 2 ** zoom`. -/
def deg2tile_x (lon : ℚ) (zoom : ℕ) : ℤ :=
  py_int ((lon + 180) / 360 * 2 ^ zoom)

/-- Python `range(a, b + 1)` over integers. -/
def int_range (a b : ℤ) : List ℤ :=
  (List.range (b + 1 - a).toNat).map (fun (i : ℕ) => a + (i : ℤ))

/-- `get_tiles_for_bbox` (lines 15-25): convert the northwest and southeast
corners to tile indices and enumerate the inclusive Cartesian product of the
x- and y-ranges (x outer loop, y inner loop).  The corner map `d2t` abstracts
`deg2tile`; its x-component is `deg2tile_x`, its y-component the float
`asinh`/`tan` discretization of line 11. -/
def get_tiles_for_bbox (d2t : ℚ → ℚ → ℕ → ℤ × ℤ) (north south west east : ℚ)
    (zoom : ℕ) : List (ℤ × ℤ) :=
  let nw := d2t north west zoom
  let se := d2t south east zoom
  (int_range nw.1 se.1).flatMap (fun x => (int_range nw.2 se.2).map (fun y => (x, y)))

/-! ## Cache keys used by the acquisition tasks -/

/-- A JSON array of integers. -/
def jArrI (l : List Int) : J := J.arr (l.map (fun y => J.num (y : ℚ)))

/-- A JSON array of strings. -/
def jArrS (l : List String) : J := J.arr (l.map J.str)

/-- The `municipalities` cache key (line 51). -/
def muni_key (hashf : String → String) : String :=
  cache_key hashf "municipalities" (J.obj [("prefs", jArrS PREF_CODES)])

/-- The `transactions_all` top-level cache key (lines 108-112). -/
def tx_all_key (hashf : String → String) : String :=
  cache_key hashf "transactions_all"
    (J.obj [("prefs", jArrS PREF_CODES), ("years", jArrI TRANSACTION_YEARS),
            ("quarters", jArrI TRANSACTION_QUARTERS)])

/-- The old-scheme per-prefecture cache key (lines 74-78). -/
def tx_old_key (hashf : String → String) (pre : String) (old_years : List Int) : String :=
  cache_key hashf ("transactions_" ++ pre)
    (J.obj [("pref", J.str pre), ("years", jArrI old_years),
            ("quarters", jArrI TRANSACTION_QUARTERS)])

/-- The new-scheme per-prefecture-per-year cache key (lines 93-97 and 141-145). -/
def tx_year_key (hashf : String → String) (pre : String) (year : Int) : String :=
  cache_key hashf ("tx_" ++ pre ++ "_" ++ toString year)
    (J.obj [("pref", J.str pre), ("year", J.num (year : ℚ)),
            ("quarters", jArrI TRANSACTION_QUARTERS)])

/-- The `official_prices_all` top-level cache key (lines 239-243). -/
def official_all_key (hashf : String → String) : String :=
  cache_key hashf "official_prices_all"
    (J.obj [("years", jArrI OFFICIAL_PRICE_YEARS), ("zoom", J.num (TILE_ZOOM : ℚ)),
            ("regions", jArrS (REGION_BBOXES.map Region.name))])

/-- The per-year official-prices cache key (lines 253-257). -/
def official_year_key (hashf : String → String) (year : Int) : String :=
  cache_key hashf ("official_prices_" ++ toString year)
    (J.obj [("year", J.num (year : ℚ)), ("zoom", J.num (TILE_ZOOM : ℚ)),
            ("regions", jArrS (REGION_BBOXES.map Region.name))])

/-- The per-year-per-region official-prices cache key (lines 267-274); the
`bbox` sub-dict holds every region field except `name`. -/
def official_region_key (hashf : String → String) (year : Int) (r : Region) : String :=
  cache_key hashf ("official_" ++ toString year ++ "_" ++ r.name)
    (J.obj [("year", J.num (year : ℚ)), ("region", J.str r.name),
            ("zoom", J.num (TILE_ZOOM : ℚ)),
            ("bbox", J.obj [("north", J.num r.north), ("south", J.num r.south),
                            ("west", J.num r.west), ("east", J.num r.east)])])

/-! ## Municipality catalog task (`fetch_municipalities`, lines 49-67)

Note the source has NO try/except around `self._client.get("XIT002", …)`:
an exception from the client propagates out of the whole function. -/

/-- One step of the prefecture loop: call the client and extend, or propagate
the raised exception.  The call attempt is counted before the outcome. -/
def muni_step (clientM : String → Except Unit (List Rec))
    (acc : Except Unit (List Rec × St)) (pc : String) : Except Unit (List Rec × St) :=
  match acc with
  | .error e => .error e
  | .ok (recs, st) =>
    match clientM pc with
    | .ok data => .ok (recs ++ data, bump st)
    | .error e => .error e

/-- `DataFetcher.fetch_municipalities`: cached short-circuit, else loop every
prefecture code, extend with `resp.get("data", [])`, write the cache.  The
client models `self._client.get("XIT002", params={"area": pref_code}).get("data", [])`;
`Except.error` is a raised `requests` exception, which this task does not catch. -/
def fetch_municipalities (hashf : String → String)
    (clientM : String → Except Unit (List Rec)) (st : St) :
    Except Unit (List Rec × St) :=
  match read_cache st (muni_key hashf) with
  | some cached => .ok (cached, st)
  | none =>
    match PREF_CODES.foldl (muni_step clientM) (.ok ([], st)) with
    | .error e => .error e
    | .ok (all_data, st') => .ok (all_data, write_cache st' (muni_key hashf) all_data)

/-! ## Old-scheme cache migration (`_migrate_old_pref_cache`, lines 71-100) -/

/-- `rec.get("Period", "")`, as the substring test target. -/
def rec_period (r : Rec) : String :=
  match recGet r "Period" with
  | some (V.str s) => s
  | _ => ""

/-- The first year `y` of `old_years` with `str(y) in period` — the year a
record is assigned to by the `for y in old_years: … break` loop (lines 87-90). -/
def first_match_year (old_years : List Int) (r : Rec) : Option Int :=
  old_years.find? (fun y => decide ((toString y).toList <:+: (rec_period r).toList))

/-- Structural worker for `erase_dups_first`: drop elements already seen. -/
def erase_dups_first_go [DecidableEq α] (seen : List α) : List α → List α
  | [] => []
  | a :: t =>
    if a ∈ seen then erase_dups_first_go seen t
    else a :: erase_dups_first_go (a :: seen) t

/-- Keep the first occurrence of each element (insertion order of Python dict
keys, as `by_year.items()` iterates them). -/
def erase_dups_first [DecidableEq α] (l : List α) : List α :=
  erase_dups_first_go [] l

/-- The keys of `by_year` in insertion order: the assigned year of each old
record, first occurrences first. -/
def first_seen_years (old_years : List Int) (old : List Rec) : List Int :=
  erase_dups_first (old.filterMap (first_match_year old_years))

/-- The payload of `by_year[y]`: the old records assigned to year `y` in
their original relative order. -/
def by_year_records (old_years : List Int) (old : List Rec) (y : Int) : List Rec :=
  old.filter (fun r => decide (first_match_year old_years r = some y))

/-- The body of `_migrate_old_pref_cache` for one `old_years` group: read the
old-scheme chunk; if present, split its records by assigned year and write
each year chunk that does not already exist.  No client call is made. -/
def migrate_one (hashf : String → String) (pre : String) (old_years : List Int)
    (st : St) : St :=
  match read_cache st (tx_old_key hashf pre old_years) with
  | none => st
  | some old =>
    (first_seen_years old_years old).foldl (fun st y =>
      match read_cache st (tx_year_key hashf pre y) with
      | none => write_cache st (tx_year_key hashf pre y) (by_year_records old_years old y)
      | some _ => st) st

/-- The single old-scheme year group `[2022, 2023, 2024]` of line 73. -/
def tx_old_years : List Int := [2022, 2023, 2024]

/-- `DataFetcher._migrate_old_pref_cache`: the loop
`for old_years in [[2022, 2023, 2024]]`. -/
def migrate_old_pref_cache (hashf : String → String) (pre : String) (st : St) : St :=
  [tx_old_years].foldl (fun s ys => migrate_one hashf pre ys s) st

/-! ## Transactions task (`fetch_all_transactions`, lines 102-190) -/

/-- `muni.get("id", muni.get("code", ""))`. -/
def city_id (m : Rec) : V :=
  (recGet m "id").getD ((recGet m "code").getD (V.str ""))

/-- Python `str()` on the values occurring as city codes. -/
def vToStr : V → String
  | .str s => s
  | .num q => qRepr q
  | .null => "None"

/-- Grouping of municipalities by `str(city_code)[:2]` (lines 119-123),
restricted to one prefecture code. -/
def pref_munis (munis : List Rec) (pc : String) : List Rec :=
  munis.filter (fun m => (vToStr (city_id m)).take 2 == pc)

/-- One quarter's records: `self._client.get("XIT001", params)` with the
exception caught and logged — a failing call contributes zero records
(lines 169-180). -/
def fetch_quarter_recs (client : V → Int → Int → Except Unit (List Rec))
    (city : V) (year q : Int) : List Rec :=
  match client city year q with
  | .ok records => records
  | .error _ => []

/-- Stamp `r["_city_code"]` and `r["_city_name"]` (lines 172-174). -/
def stamp_city (cc cn : V) (r : Rec) : Rec :=
  recSet (recSet r "_city_code" cc) "_city_name" cn

/-- The quarter loop for one municipality (lines 159-182): each quarter is one
counted client attempt; its stamped records extend the year accumulator. -/
def fetch_muni_year (client : V → Int → Int → Except Unit (List Rec)) (year : Int)
    (acc : List Rec × St) (m : Rec) : List Rec × St :=
  let cc := city_id m
  let cn := (recGet m "name").getD (V.str "")
  TRANSACTION_QUARTERS.foldl (fun acc2 q =>
    (acc2.1 ++ (fetch_quarter_recs client cc year q).map (stamp_city cc cn),
     bump acc2.2)) acc

/-- The `year_records` computation of one (prefecture, year) leaf chunk. -/
def fetch_year_chunk (client : V → Int → Int → Except Unit (List Rec))
    (ms : List Rec) (year : Int) (st : St) : List Rec × St :=
  ms.foldl (fetch_muni_year client year) ([], st)

/-- The per-year body (lines 140-186): cached year chunk short-circuits,
otherwise fetch the chunk, write it, and extend `all_records`. -/
def process_tx_year (hashf : String → String)
    (client : V → Int → Int → Except Unit (List Rec)) (pre : String)
    (ms : List Rec) (acc : List Rec × St) (year : Int) : List Rec × St :=
  match read_cache acc.2 (tx_year_key hashf pre year) with
  | some year_cached => (acc.1 ++ year_cached, acc.2)
  | none =>
    let r := fetch_year_chunk client ms year acc.2
    (acc.1 ++ r.1, write_cache r.2 (tx_year_key hashf pre year) r.1)

/-- The per-prefecture body (lines 132-186): skip prefectures with no
municipalities, else migrate the old cache and loop the years. -/
def process_tx_pref (hashf : String → String)
    (client : V → Int → Int → Except Unit (List Rec)) (munis : List Rec)
    (acc : List Rec × St) (pre : String) : List Rec × St :=
  let ms := pref_munis munis pre
  if ms.isEmpty then acc
  else
    TRANSACTION_YEARS.foldl (process_tx_year hashf client pre ms)
      (acc.1, migrate_old_pref_cache hashf pre acc.2)

/-- `DataFetcher.fetch_all_transactions`: top-level cached short-circuit,
else walk prefecture × year chunks and write the top-level chunk last. -/
def fetch_all_transactions (hashf : String → String)
    (client : V → Int → Int → Except Unit (List Rec)) (munis : List Rec)
    (st : St) : List Rec × St :=
  match read_cache st (tx_all_key hashf) with
  | some cached => (cached, st)
  | none =>
    let r := PREF_CODES.foldl (process_tx_pref hashf client munis) ([], st)
    (r.1, write_cache r.2 (tx_all_key hashf) r.1)

/-! ## Official-prices task (`fetch_official_prices`, lines 194-319) -/

/-- One GeoJSON feature as consumed by `_scan_tiles_for_region`:
`properties`, and `geometry.coordinates[0]`/`[1]` (longitude, latitude). -/
structure Feature where
  properties : Rec
  lon0 : V
  lat0 : V
deriving DecidableEq, Repr

/-- `_scan_tiles_for_region` (lines 194-231): walk every tile of the region's
bbox; a failing tile is caught and contributes zero records; each feature's
properties are stamped with `_lon`, `_lat`, `_year`. -/
def scan_tiles_for_region (d2t : ℚ → ℚ → ℕ → ℤ × ℤ)
    (clientG : Int → ℕ → ℤ → ℤ → Except Unit (List Feature))
    (region : Region) (year : Int) (st : St) : List Rec × St :=
  let tiles := get_tiles_for_bbox d2t region.north region.south region.west
    region.east TILE_ZOOM
  tiles.foldl (fun acc t =>
    match clientG year TILE_ZOOM t.1 t.2 with
    | .ok feats =>
      (acc.1 ++ feats.map (fun f =>
        recSet (recSet (recSet f.properties "_lon" f.lon0) "_lat" f.lat0)
          "_year" (V.num (year : ℚ))), bump acc.2)
    | .error _ => (acc.1, bump acc.2)) ([], st)

/-- The deduplication tuple of lines 305-306:
`(rec.get("_lat"), rec.get("_lon"), rec.get("_year"), rec.get("u_standard_address_code"))`. -/
def recKey4 (r : Rec) : Option V × Option V × Option V × Option V :=
  (recGet r "_lat", recGet r "_lon", recGet r "_year",
   recGet r "u_standard_address_code")

/-- The `seen`-set loop of lines 302-309. -/
def dedup_go (seen : List (Option V × Option V × Option V × Option V)) :
    List Rec → List Rec
  | [] => []
  | r :: t =>
    if recKey4 r ∈ seen then dedup_go seen t
    else r :: dedup_go (recKey4 r :: seen) t

/-- The per-year deduplication pass over the concatenated region payloads. -/
def dedup_records (l : List Rec) : List Rec :=
  dedup_go [] l

/-- The per-region body (lines 265-299): cached region chunk short-circuits,
otherwise scan the region's tiles, write the region chunk, extend. -/
def process_op_region (d2t : ℚ → ℚ → ℕ → ℤ × ℤ) (hashf : String → String)
    (clientG : Int → ℕ → ℤ → ℤ → Except Unit (List Feature)) (year : Int)
    (acc : List Rec × St) (region : Region) : List Rec × St :=
  match read_cache acc.2 (official_region_key hashf year region) with
  | some region_cached => (acc.1 ++ region_cached, acc.2)
  | none =>
    let r := scan_tiles_for_region d2t clientG region year acc.2
    (acc.1 ++ r.1, write_cache r.2 (official_region_key hashf year region) r.1)

/-- The per-year body (lines 251-315): cached year chunk short-circuits,
otherwise merge all regions, deduplicate, write the year chunk, extend. -/
def process_op_year (d2t : ℚ → ℚ → ℕ → ℤ × ℤ) (hashf : String → String)
    (clientG : Int → ℕ → ℤ → ℤ → Except Unit (List Feature))
    (acc : List Rec × St) (year : Int) : List Rec × St :=
  match read_cache acc.2 (official_year_key hashf year) with
  | some year_cached => (acc.1 ++ year_cached, acc.2)
  | none =>
    let r := REGION_BBOXES.foldl (process_op_region d2t hashf clientG year) ([], acc.2)
    let deduped := dedup_records r.1
    (acc.1 ++ deduped, write_cache r.2 (official_year_key hashf year) deduped)

/-- `DataFetcher.fetch_official_prices`: top-level cached short-circuit, else
walk year × region chunks, deduplicate per year, write the top-level chunk
last. -/
def fetch_official_prices (d2t : ℚ → ℚ → ℕ → ℤ × ℤ) (hashf : String → String)
    (clientG : Int → ℕ → ℤ → ℤ → Except Unit (List Feature)) (st : St) :
    List Rec × St :=
  match read_cache st (official_all_key hashf) with
  | some cached => (cached, st)
  | none =>
    let r := OFFICIAL_PRICE_YEARS.foldl (process_op_year d2t hashf clientG) ([], st)
    (r.1, write_cache r.2 (official_all_key hashf) r.1)

/-! ## Deviation arithmetic (`_compute_deviation_ratios`, src/data_processor.py
lines 198-241)

Pandas semantics per result row: the mask of lines 221 is
`op_mean.notna() & (op_mean > 0)`; rows in the mask receive
`(tx_median - op_mean) / op_mean * 100` (which is absent/NaN when `tx_median`
is absent), rows outside the mask keep `deviation_pct` absent.  Absent (NaN)
cells are `none`. -/

/-- `deviation_pct` of one result row, from its `tx_median` and `op_mean`
cells. -/
def deviation_pct (tx_median op_mean : Option ℚ) : Option ℚ :=
  match op_mean with
  | some m => if 0 < m then tx_median.map (fun t => (t - m) / m * 100) else none
  | none => none

/-! ## Point-in-polygon join (`_compute_official_stats`, lines 172-194)

`gpd.sjoin(points, boundary_slim, how="left", predicate="within")` followed by
`groupby("geo_city_code")["official_price"].agg(["mean", "count"])`.  A
boundary polygon is its unit code plus its membership test (the `within`
predicate evaluated by the external geometry library); a point row is the
point plus its `official_price`. -/

/-- A point: (longitude, latitude), as built by `Point(xy) for xy in
zip(op_df["lon"], op_df["lat"])`. -/
abbrev Pt := ℚ × ℚ

/-- One boundary polygon row of `boundary_slim`. -/
structure BPoly where
  code : String
  within : Pt → Bool

/-- The left spatial join: each point row yields one row per containing
polygon, or a single unmatched row (`geo_city_code` absent) when no polygon
contains it. -/
def sjoin_within (pts : List (Pt × ℚ)) (polys : List BPoly) :
    List (ℚ × Option String) :=
  pts.flatMap (fun pv =>
    let ms := polys.filter (fun b => b.within pv.1)
    if ms.isEmpty then [(pv.2, none)] else ms.map (fun b => (pv.2, some b.code)))

/-- The group of `official_price` values attributed to unit code `c` by
`groupby("geo_city_code")` (unmatched rows are dropped by pandas groupby). -/
def group_prices (rows : List (ℚ × Option String)) (c : String) : List ℚ :=
  rows.filterMap (fun r => if r.2 = some c then some r.1 else none)

/-- The `(op_mean, op_count)` row of `op_stats` for unit code `c`: absent when
no point was attributed to `c`, else the mean and count of its group. -/
def op_stat (pts : List (Pt × ℚ)) (polys : List BPoly) (c : String) :
    Option (ℚ × ℕ) :=
  let g := group_prices (sjoin_within pts polys) c
  if g.isEmpty then none else some ((g.foldl (· + ·) 0) / g.length, g.length)

/-! ## The on-disk write trace of `_write_cache` (lines 42-45)

`open(path, "w")` truncates the keyed file in place, then `json.dump` streams
the serialization into it.  The trace below records every filesystem state an
interruption can leave behind: state `k` holds the first `k` characters of the
serialized payload under the FINAL keyed path (there is no temporary path and
no rename). -/

/-- The file backing a cache key, relative to `config.CACHE_DIR`. -/
def cache_file_path (key : String) : String := key ++ ".json"

/-- A filesystem: path → file content; newer entries shadow older ones. -/
abbrev FSState := List (String × String)

/-- Content of the file at `path`, if it exists. -/
def readFile (fs : FSState) (path : String) : Option String :=
  (fs.find? (fun p => p.1 == path)).map (fun p => p.2)

/-- The filesystem states passed through by `_write_cache key payload`
(payload already serialized to `s`): state `k` is the result of interruption
after `k` characters were flushed; the last state is the completed write. -/
def write_cache_states (fs : FSState) (key : String) (s : String) : List FSState :=
  (List.range (s.length + 1)).map (fun k => (cache_file_path key, s.take k) :: fs)

/-! ## Failure-recovery views of the clients

The per-quarter try/except of the transactions task and the per-tile
try/except of the appraisals task recover a raised exception as "no data".
The following views replace every failing response by an empty success, so
"a failing call contributes zero records and never aborts the chunk" can be
stated as equality of runs. -/

/-- The transactions client with every failure recovered as zero records. -/
def recover_tx_client (client : V → Int → Int → Except Unit (List Rec)) :
    V → Int → Int → Except Unit (List Rec) :=
  fun c y q =>
    match client c y q with
    | .ok records => .ok records
    | .error _ => .ok []

/-- The tile client with every failure recovered as zero features. -/
def recover_geo_client (clientG : Int → ℕ → ℤ → ℤ → Except Unit (List Feature)) :
    Int → ℕ → ℤ → ℤ → Except Unit (List Feature) :=
  fun y z x t =>
    match clientG y z x t with
    | .ok feats => .ok feats
    | .error _ => .ok []

/-! # Theorems -/

/-! ## Cache read/write lemmas -/

/-- Reading a key immediately after writing it returns the written payload. -/
theorem read_write_cache_same (st : St) (k : String) (v : List Rec) :
    read_cache (write_cache st k v) k = some v := by
  simp [read_cache, write_cache, List.find?]

/-- Writing one key leaves every other key's payload unchanged. -/
theorem read_write_cache_other (st : St) (k k' : String) (v : List Rec)
    (h : k' ≠ k) : read_cache (write_cache st k v) k' = read_cache st k' := by
  simp only [read_cache, write_cache, List.find?]
  have : (k == k') = false := by simpa [beq_iff_eq] using fun e => h e.symm
  simp [this]

/-- A cache write does not touch the external-call counter. -/
theorem write_cache_calls (st : St) (k : String) (v : List Rec) :
    (write_cache st k v).calls = st.calls := rfl

/-! ## C4 — deviation arithmetic -/

/-- C4: for every unit row, `deviation_pct` equals
`(tx_median - op_mean) / op_mean * 100` whenever `op_mean` is present and
strictly positive (so `tx_median = 110`, `op_mean = 100` gives `10`), and is
absent whenever `op_mean` is absent or zero. -/
theorem C4_deviation_arithmetic (t m : ℚ) (tx : Option ℚ) (hm : 0 < m) :
    deviation_pct (some t) (some m) = some ((t - m) / m * 100)
    ∧ deviation_pct tx none = none
    ∧ deviation_pct tx (some 0) = none
    ∧ deviation_pct (some 110) (some 100) = some 10 := by
  refine ⟨by simp [deviation_pct, hm], rfl, by simp [deviation_pct], ?_⟩
  simp only [deviation_pct]
  norm_num

/-- Witness for C4 at `tx_median = 110`, `op_mean = 100`. -/
theorem C4_witness : deviation_pct (some 110) (some 100) = some 10 :=
  (C4_deviation_arithmetic 110 100 none (by norm_num)).2.2.2

/-! ## C9 — tile enumeration -/

/-- Membership in Python `range(a, b + 1)`. -/
theorem mem_int_range {a b x : ℤ} : x ∈ int_range a b ↔ a ≤ x ∧ x ≤ b := by
  unfold int_range
  constructor
  · intro hx
    obtain ⟨i, hi, rfl⟩ := List.mem_map.mp hx
    have := List.mem_range.mp hi
    omega
  · rintro ⟨h1, h2⟩
    refine List.mem_map.mpr ⟨(x - a).toNat, List.mem_range.mpr ?_, ?_⟩ <;> omega

/-- `range(x, x + 1)` is the singleton `[x]`. -/
theorem int_range_self (x : ℤ) : int_range x x = [x] := by
  have h : (x + 1 - x).toNat = 1 := by omega
  unfold int_range
  rw [h]
  simp [List.range_succ]

/-- Counterexample to C9 as stated: the source computes the tile x-index with
Python `int()` (truncation toward zero), not `floor`; at `lon = -360`,
`zoom = 0` the code yields tile `0` while the claimed floor formula yields
`-1`. -/
theorem C9_counterexample :
    deg2tile_x (-360) 0 = 0
    ∧ (⌊(((-360 : ℚ) + 180) / 360 * 2 ^ (0 : ℕ))⌋ : ℤ) = -1 := by
  have harg : (((-360 : ℚ) + 180) / 360 * 2 ^ (0 : ℕ)) = -1 / 2 := by norm_num
  constructor
  · simp only [deg2tile_x, py_int, harg]
    rw [if_neg (by norm_num)]
    rw [Int.ceil_eq_iff]
    norm_num
  · rw [harg, Int.floor_eq_iff]
    norm_num

/-- C9 (amended): for every rectangle and zoom, `get_tiles_for_bbox` returns
exactly the inclusive Cartesian product of the x- and y-ranges between the
northwest and southeast corner tiles; a degenerate zero-area rectangle yields
exactly one tile; no input fails.  The x-corner computation is
`int((lon + 180) / 360 * 2^zoom)` with `int()` truncating toward zero, which
coincides with the claimed `floor` for every `lon ≥ -180`. -/
theorem C9_tile_enumeration (d2t : ℚ → ℚ → ℕ → ℤ × ℤ)
    (north south west east lon : ℚ) (zoom : ℕ) (hlon : -180 ≤ lon) :
    (∀ t : ℤ × ℤ, t ∈ get_tiles_for_bbox d2t north south west east zoom ↔
      ((d2t north west zoom).1 ≤ t.1 ∧ t.1 ≤ (d2t south east zoom).1 ∧
       (d2t north west zoom).2 ≤ t.2 ∧ t.2 ≤ (d2t south east zoom).2))
    ∧ get_tiles_for_bbox d2t north north west west zoom = [d2t north west zoom]
    ∧ deg2tile_x lon zoom = ⌊(lon + 180) / 360 * 2 ^ zoom⌋ := by
  refine ⟨?_, ?_, ?_⟩
  · rintro ⟨tx, ty⟩
    simp only [get_tiles_for_bbox, List.mem_flatMap, List.mem_map, mem_int_range]
    constructor
    · rintro ⟨x, ⟨hx1, hx2⟩, y, ⟨hy1, hy2⟩, h⟩
      cases h
      exact ⟨hx1, hx2, hy1, hy2⟩
    · rintro ⟨h1, h2, h3, h4⟩
      exact ⟨tx, ⟨h1, h2⟩, ty, ⟨h3, h4⟩, rfl⟩
  · simp [get_tiles_for_bbox, int_range_self]
  · have h0 : 0 ≤ (lon + 180) / 360 * 2 ^ zoom := by
      apply mul_nonneg
      · apply div_nonneg (by linarith) (by norm_num)
      · positivity
    simp only [deg2tile_x, py_int, if_pos h0]

/-- Witness for C9 at a degenerate rectangle and an in-range longitude. -/
theorem C9_witness :
    get_tiles_for_bbox (fun _ _ _ => (3, 5)) 35 35 139 139 13 = [(3, 5)]
    ∧ deg2tile_x 139 13 = ⌊((139 : ℚ) + 180) / 360 * 2 ^ 13⌋ := by
  have h := C9_tile_enumeration (fun _ _ _ => (3, 5)) 35 35 139 139 139 13
    (by norm_num)
  exact ⟨h.2.1, h.2.2⟩

/-! ## C1 — the cache write is in-place and interruptible mid-payload -/

/-- C1 evaluation: `_write_cache` streams the payload into the final keyed
file in place.  For key `"tx"` and serialized payload `"[1, 2]"`, the trace's
third state — interruption after two characters — leaves the keyed file
holding the strict prefix `"[1"`; moreover from the very first state (the
`open(path, "w")` truncation) onward, the final keyed path exists, so an
interrupted write leaves the key resolvable to a truncated payload.  There is
no temporary path and no rename anywhere in the trace. -/
theorem C1_write_in_place_truncation :
    (write_cache_states [] "tx" "[1, 2]")[2]? =
      some [(cache_file_path "tx", "[1")]
    ∧ readFile [(cache_file_path "tx", "[1")] (cache_file_path "tx") = some "[1"
    ∧ ((write_cache_states [] "tx" "[1, 2]").all
        (fun fs => ((readFile fs (cache_file_path "tx")).isSome : Bool))) = true
    ∧ (("[1" == "[1, 2]") = false) := by
  refine ⟨by decide, by decide, by decide, by decide⟩

/-! ## C6 — cache-key canonicalization is order-independent -/

/-- Key order on object entries. -/
def keyLe (a b : String × J) : Prop := a.1 ≤ b.1

/-- Inserting an entry is a permutation of consing it. -/
theorem insEntry_perm (kv : String × J) (l : List (String × J)) :
    insEntry kv l ~ kv :: l := by
  induction l with
  | nil => rfl
  | cons b t ih =>
    simp only [insEntry]
    split
    · rfl
    · exact (ih.cons b).trans (List.Perm.swap kv b t)

/-- Inserting into a key-sorted list keeps it key-sorted. -/
theorem insEntry_sorted (kv : String × J) (l : List (String × J))
    (h : l.Pairwise keyLe) : (insEntry kv l).Pairwise keyLe := by
  induction l with
  | nil => simp [insEntry, List.pairwise_cons]
  | cons b t ih =>
    simp only [insEntry]
    split
    · rename_i hle
      refine List.Pairwise.cons ?_ h
      intro x hx
      rcases List.mem_cons.mp hx with rfl | hx
      · exact hle
      · exact le_trans hle ((List.pairwise_cons.mp h).1 x hx)
    · rename_i hgt
      have hbk : b.1 ≤ kv.1 := le_of_not_le hgt
      obtain ⟨hb, ht⟩ := List.pairwise_cons.mp h
      refine List.Pairwise.cons ?_ (ih ht)
      intro x hx
      have hx' : x ∈ kv :: t := (insEntry_perm kv t).mem_iff.mp hx
      rcases List.mem_cons.mp hx' with rfl | hx'
      · exact hbk
      · exact hb x hx'

/-- The insertion sort permutes its input. -/
theorem sortEntries_perm (l : List (String × J)) : sortEntries l ~ l := by
  induction l with
  | nil => rfl
  | cons kv t ih => exact (insEntry_perm kv (sortEntries t)).trans (ih.cons kv)

/-- The insertion sort produces a key-sorted list. -/
theorem sortEntries_sorted (l : List (String × J)) :
    (sortEntries l).Pairwise keyLe := by
  induction l with
  | nil => exact List.Pairwise.nil
  | cons kv t ih => exact insEntry_sorted kv (sortEntries t) ih

/-- Two key-sorted entry lists that are permutations of each other and have
no duplicate keys are equal. -/
theorem sorted_perm_nodup_eq : ∀ l₁ l₂ : List (String × J), l₁ ~ l₂ →
    l₁.Pairwise keyLe → l₂.Pairwise keyLe → (l₁.map Prod.fst).Nodup →
    l₁ = l₂ := by
  intro l₁
  induction l₁ with
  | nil => intro l₂ hp _ _ _; exact hp.nil_eq
  | cons a t₁ ih =>
    intro l₂ hp hs₁ hs₂ hnd
    cases l₂ with
    | nil => exact absurd hp.symm (by simp)
    | cons b t₂ =>
      have hab : a = b := by
        by_contra hne
        have hb₁ : b ∈ a :: t₁ := hp.symm.subset (List.mem_cons_self b t₂)
        have ha₂ : a ∈ b :: t₂ := hp.subset (List.mem_cons_self a t₁)
        rcases List.mem_cons.mp hb₁ with h | hb₁
        · exact hne h.symm
        rcases List.mem_cons.mp ha₂ with h | ha₂
        · exact hne h
        have h1 : a.1 ≤ b.1 := (List.pairwise_cons.mp hs₁).1 b hb₁
        have h2 : b.1 ≤ a.1 := (List.pairwise_cons.mp hs₂).1 a ha₂
        have hkey : a.1 = b.1 := le_antisymm h1 h2
        have : a.1 ∈ t₁.map Prod.fst := List.mem_map.mpr ⟨b, hb₁, hkey.symm⟩
        exact (List.nodup_cons.mp (by simpa using hnd)).1 this
      subst hab
      have htp : t₁ ~ t₂ := hp.cons_inv
      have := ih t₂ htp (List.pairwise_cons.mp hs₁).2
        (List.pairwise_cons.mp hs₂).2 (List.nodup_cons.mp (by simpa using hnd)).2
      rw [this]

/-- `canonObj` is the map of `canon` over the entry values. -/
theorem canonObj_eq_map (l : List (String × J)) :
    canonObj l = l.map (fun kv => (kv.1, canon kv.2)) := by
  induction l with
  | nil => rfl
  | cons kv t ih => simp [canonObj, ih]

/-- C6: for every key prefix, two parameter mappings containing exactly the
same key-value pairs in different insertion orders (no duplicate keys, as in
a Python dict) canonicalize to the same serialized form and hence to the same
cache key, for every hash function. -/
theorem C6_cache_key_order_independent (hashf : String → String) (pre : String)
    (l₁ l₂ : List (String × J)) (hperm : l₁ ~ l₂)
    (hnd : (l₁.map Prod.fst).Nodup) :
    cache_key hashf pre (J.obj l₁) = cache_key hashf pre (J.obj l₂) := by
  have hmap : canonObj l₁ ~ canonObj l₂ := by
    rw [canonObj_eq_map, canonObj_eq_map]
    exact hperm.map _
  have hkeys : ((sortEntries (canonObj l₁)).map Prod.fst).Nodup := by
    have e₁ : (canonObj l₁).map Prod.fst = l₁.map Prod.fst := by
      rw [canonObj_eq_map, List.map_map]
      rfl
    have hp : (sortEntries (canonObj l₁)).map Prod.fst ~ l₁.map Prod.fst := by
      rw [← e₁]
      exact (sortEntries_perm (canonObj l₁)).map Prod.fst
    exact hp.nodup_iff.mpr hnd
  have hsorted : sortEntries (canonObj l₁) = sortEntries (canonObj l₂) := by
    apply sorted_perm_nodup_eq
    · exact (sortEntries_perm _).trans (hmap.trans (sortEntries_perm _).symm)
    · exact sortEntries_sorted _
    · exact sortEntries_sorted _
    · exact hkeys
  unfold cache_key
  have : canon (J.obj l₁) = canon (J.obj l₂) := by
    simp only [canon]
    rw [hsorted]
  rw [this]

/-- Witness for C6: the two-field parameter dict in both insertion orders. -/
theorem C6_witness :
    cache_key id "transactions_13"
      (J.obj [("years", J.arr [J.num 2022]), ("pref", J.str "13")])
    = cache_key id "transactions_13"
      (J.obj [("pref", J.str "13"), ("years", J.arr [J.num 2022])]) :=
  C6_cache_key_order_independent id "transactions_13" _ _
    (List.Perm.swap _ _ _) (by decide)

/-! ## C5, C10 — the per-year deduplication pass -/

/-- The dedup loop output is a sublist of its input (relative order kept). -/
theorem dedup_go_sublist (seen : List (Option V × Option V × Option V × Option V))
    (l : List Rec) : dedup_go seen l <+ l := by
  induction l generalizing seen with
  | nil => simp [dedup_go]
  | cons r t ih =>
    simp only [dedup_go]
    split
    · exact (ih seen).cons r
    · exact (ih _).cons₂ r

/-- No element of the dedup loop output has a key already seen. -/
theorem mem_dedup_go_notin (seen : List (Option V × Option V × Option V × Option V))
    (l : List Rec) {r : Rec} (hr : r ∈ dedup_go seen l) : recKey4 r ∉ seen := by
  induction l generalizing seen with
  | nil => simp [dedup_go] at hr
  | cons a t ih =>
    simp only [dedup_go] at hr
    split at hr
    · exact ih _ hr
    · rename_i hnot
      rcases List.mem_cons.mp hr with rfl | hr
      · exact hnot
      · intro hmem
        exact (ih _ hr) (List.mem_cons_of_mem _ hmem)

/-- Key multiplicity after the dedup loop: zero for already-seen keys, else
the input multiplicity capped at one. -/
theorem dedup_go_countP (l : List Rec)
    (seen : List (Option V × Option V × Option V × Option V))
    (k : Option V × Option V × Option V × Option V) :
    (dedup_go seen l).countP (fun r => decide (recKey4 r = k))
      = if k ∈ seen then 0
        else min 1 (l.countP (fun r => decide (recKey4 r = k))) := by
  induction l generalizing seen with
  | nil => simp [dedup_go]
  | cons a t ih =>
    simp only [dedup_go]
    by_cases ha : recKey4 a ∈ seen
    · rw [if_pos ha, ih seen]
      by_cases hk : k ∈ seen
      · simp [hk]
      · have hne : ¬ (recKey4 a = k) := fun e => hk (e ▸ ha)
        rw [if_neg hk, if_neg hk, List.countP_cons, if_neg (by simpa using hne)]
        omega
    · rw [if_neg ha, List.countP_cons, ih (recKey4 a :: seen)]
      by_cases hak : recKey4 a = k
      · subst hak
        rw [if_pos (List.mem_cons_self _ _), if_neg ha,
            List.countP_cons, if_pos (by simp)]
        omega
      · have hka : ¬ k = recKey4 a := fun h => hak h.symm
        have hmem : (k ∈ recKey4 a :: seen) ↔ (k ∈ seen) := by
          simp [List.mem_cons, hka]
        by_cases hk : k ∈ seen
        · rw [if_pos (hmem.mpr hk), if_pos hk, if_neg (by simpa using hak)]
        · rw [if_neg (fun h => hk (hmem.mp h)), if_neg hk,
              List.countP_cons, if_neg (by simpa using hak)]
          omega

/-- Every survivor of the dedup loop is the first input record bearing its
key, provided its key was not already seen. -/
theorem dedup_go_first (l : List Rec) :
    ∀ (seen : List (Option V × Option V × Option V × Option V)) (r : Rec),
      r ∈ dedup_go seen l →
      l.find? (fun x => decide (recKey4 x = recKey4 r)) = some r := by
  induction l with
  | nil => intro seen r hr; simp [dedup_go] at hr
  | cons a t ih =>
    intro seen r hr
    simp only [dedup_go] at hr
    by_cases ha : recKey4 a ∈ seen
    · rw [if_pos ha] at hr
      have hrk := mem_dedup_go_notin seen t hr
      have hne : recKey4 a ≠ recKey4 r := fun e => hrk (e ▸ ha)
      rw [List.find?_cons]
      simp only [hne, decide_eq_true_eq, if_neg]
      · exact ih seen r hr
    · rw [if_neg ha] at hr
      rcases List.mem_cons.mp hr with rfl | hr
      · rw [List.find?_cons]
        simp
      · have hrk := mem_dedup_go_notin _ t hr
        have hne : recKey4 a ≠ recKey4 r := by
          intro e
          exact hrk (e ▸ List.mem_cons_self _ _)
        rw [List.find?_cons]
        simp only [hne, decide_eq_true_eq, if_neg]
        · exact ih _ r hr

/-- A predicate holding exactly once on a list holds on a unique element. -/
theorem countP_one_unique {p : Rec → Bool} : ∀ {l : List Rec}, l.countP p = 1 →
    ∀ a ∈ l, p a → ∀ b ∈ l, p b → a = b := by
  intro l
  induction l with
  | nil => simp
  | cons h t ih =>
    intro hc a ha hpa b hb hpb
    rw [List.countP_cons] at hc
    by_cases hph : p h
    · rw [if_pos hph] at hc
      have ht0 : t.countP p = 0 := by omega
      have hnone : ∀ x ∈ t, ¬ p x := List.countP_eq_zero.mp ht0
      have ha' : a = h := by
        rcases List.mem_cons.mp ha with h' | h'
        · exact h'
        · exact absurd hpa (hnone a h')
      have hb' : b = h := by
        rcases List.mem_cons.mp hb with h' | h'
        · exact h'
        · exact absurd hpb (hnone b h')
      rw [ha', hb']
    · rw [if_neg hph] at hc
      have ht1 : t.countP p = 1 := by omega
      have ha' : a ∈ t := by
        rcases List.mem_cons.mp ha with h' | h'
        · exact absurd (h' ▸ hpa) hph
        · exact h'
      have hb' : b ∈ t := by
        rcases List.mem_cons.mp hb with h' | h'
        · exact absurd (h' ▸ hpb) hph
        · exact h'
      exact ih ht1 a ha' hpa b hb' hpb

/-- C5: after the per-year deduplication pass, every key tuple occurs at most
once — exactly once when it occurred in the input — and a record whose tuple
is unique in the input is not removed. -/
theorem C5_dedup_exactly_once (l : List Rec)
    (k : Option V × Option V × Option V × Option V) (r : Rec) (hr : r ∈ l)
    (huniq : l.countP (fun x => decide (recKey4 x = recKey4 r)) = 1) :
    (dedup_records l).countP (fun x => decide (recKey4 x = k))
      = min 1 (l.countP (fun x => decide (recKey4 x = k)))
    ∧ r ∈ dedup_records l := by
  constructor
  · rw [dedup_records, dedup_go_countP]
    simp
  · have h1 : (dedup_records l).countP
        (fun x => decide (recKey4 x = recKey4 r)) = 1 := by
      rw [dedup_records, dedup_go_countP]
      simp [huniq]
    have hpos : 0 < (dedup_records l).countP
        (fun x => decide (recKey4 x = recKey4 r)) := by omega
    obtain ⟨x, hx, hpx⟩ := List.countP_pos_iff.mp hpos
    have hxl : x ∈ l := (dedup_go_sublist [] l).subset hx
    have hxr : x = r :=
      countP_one_unique huniq x hxl hpx r hr (by simp)
    exact hxr ▸ hx

/-- Witness for C5: two region scans return the same key tuple (records `rA`
and `rB` below), a third tuple is unique; the merged set keeps the duplicate
once and the unique record survives. -/
theorem C5_witness :
    (dedup_records
        [[("_lat", V.num 35), ("_lon", V.num 139), ("_year", V.num 2022),
          ("u_standard_address_code", V.str "X")],
         [("_lat", V.num 36), ("_lon", V.num 139), ("_year", V.num 2022),
          ("u_standard_address_code", V.str "Y")],
         [("_lat", V.num 35), ("_lon", V.num 139), ("_year", V.num 2022),
          ("u_standard_address_code", V.str "X"), ("region", V.str "関東・甲信")]]).countP
      (fun x => decide (recKey4 x =
        recKey4 [("_lat", V.num 35), ("_lon", V.num 139), ("_year", V.num 2022),
                 ("u_standard_address_code", V.str "X")])) = 1
    ∧ [("_lat", V.num 36), ("_lon", V.num 139), ("_year", V.num 2022),
       ("u_standard_address_code", V.str "Y")] ∈ dedup_records
        [[("_lat", V.num 35), ("_lon", V.num 139), ("_year", V.num 2022),
          ("u_standard_address_code", V.str "X")],
         [("_lat", V.num 36), ("_lon", V.num 139), ("_year", V.num 2022),
          ("u_standard_address_code", V.str "Y")],
         [("_lat", V.num 35), ("_lon", V.num 139), ("_year", V.num 2022),
          ("u_standard_address_code", V.str "X"), ("region", V.str "関東・甲信")]] := by
  have h := C5_dedup_exactly_once
    [[("_lat", V.num 35), ("_lon", V.num 139), ("_year", V.num 2022),
      ("u_standard_address_code", V.str "X")],
     [("_lat", V.num 36), ("_lon", V.num 139), ("_year", V.num 2022),
      ("u_standard_address_code", V.str "Y")],
     [("_lat", V.num 35), ("_lon", V.num 139), ("_year", V.num 2022),
      ("u_standard_address_code", V.str "X"), ("region", V.str "関東・甲信")]]
    (recKey4 [("_lat", V.num 35), ("_lon", V.num 139), ("_year", V.num 2022),
              ("u_standard_address_code", V.str "X")])
    [("_lat", V.num 36), ("_lon", V.num 139), ("_year", V.num 2022),
     ("u_standard_address_code", V.str "Y")]
    (by decide) (by decide)
  exact ⟨by rw [h.1]; decide, h.2⟩

/-- C10: the deduplicated output is a sublist of the concatenated input (the
relative order of retained records is preserved), and every survivor is the
first occurrence of its key tuple in concatenation order. -/
theorem C10_dedup_keeps_first (l : List Rec) (r : Rec)
    (hr : r ∈ dedup_records l) :
    dedup_records l <+ l
    ∧ l.find? (fun x => decide (recKey4 x = recKey4 r)) = some r :=
  ⟨dedup_go_sublist [] l, dedup_go_first l [] r hr⟩

/-- Witness for C10: of two records sharing a key tuple, the first one in
concatenation order is the survivor that `find?` locates. -/
theorem C10_witness :
    dedup_records
        [[("_lat", V.num 35), ("_lon", V.num 140), ("_year", V.num 2023),
          ("u_standard_address_code", V.str "Z"), ("scan", V.num 1)],
         [("_lat", V.num 35), ("_lon", V.num 140), ("_year", V.num 2023),
          ("u_standard_address_code", V.str "Z"), ("scan", V.num 2)]] <+
      [[("_lat", V.num 35), ("_lon", V.num 140), ("_year", V.num 2023),
        ("u_standard_address_code", V.str "Z"), ("scan", V.num 1)],
       [("_lat", V.num 35), ("_lon", V.num 140), ("_year", V.num 2023),
        ("u_standard_address_code", V.str "Z"), ("scan", V.num 2)]]
    ∧ [[("_lat", V.num 35), ("_lon", V.num 140), ("_year", V.num 2023),
        ("u_standard_address_code", V.str "Z"), ("scan", V.num 1)],
       [("_lat", V.num 35), ("_lon", V.num 140), ("_year", V.num 2023),
        ("u_standard_address_code", V.str "Z"), ("scan", V.num 2)]].find?
      (fun x => decide (recKey4 x =
        recKey4 [("_lat", V.num 35), ("_lon", V.num 140), ("_year", V.num 2023),
                 ("u_standard_address_code", V.str "Z"), ("scan", V.num 1)]))
      = some [("_lat", V.num 35), ("_lon", V.num 140), ("_year", V.num 2023),
              ("u_standard_address_code", V.str "Z"), ("scan", V.num 1)] :=
  C10_dedup_keeps_first _ _ (by decide)

/-! ## C8 — point-in-polygon attribution -/

/-- Under the at-most-one-containing-polygon precondition, the polygons
containing a point form either the empty list or the singleton of that
polygon. -/
theorem filter_within_singleton {polys : List BPoly} {p : Pt}
    (hwf : polys.countP (fun b => b.within p) ≤ 1) {b : BPoly}
    (hb : b ∈ polys) (hbp : b.within p = true) :
    polys.filter (fun x => x.within p) = [b] := by
  have hmem : b ∈ polys.filter (fun x => x.within p) :=
    List.mem_filter.mpr ⟨hb, hbp⟩
  have hlen : (polys.filter (fun x => x.within p)).length = 1 := by
    have h1 : 1 ≤ (polys.filter (fun x => x.within p)).length :=
      List.length_pos.mpr (List.ne_nil_of_mem hmem)
    have h2 : (polys.filter (fun x => x.within p)).length ≤ 1 := by
      rw [← List.countP_eq_length_filter]
      exact hwf
    omega
  obtain ⟨x, hx⟩ := List.length_eq_one.mp hlen
  rw [hx] at hmem ⊢
  simp only [List.mem_singleton] at hmem
  rw [hmem]

/-- C8: under the precondition that each point lies within at most one
boundary polygon, a point lying inside exactly one polygon contributes its
price to exactly that polygon's unit group (hence to its mean and count) and
to no other unit's group, and a point lying outside all polygons contributes
to no unit's group — in both cases without error. -/
theorem C8_spatial_join (polys : List BPoly) (pts : List (Pt × ℚ)) (p : Pt)
    (v : ℚ) (hwf : ∀ q : Pt, polys.countP (fun b => b.within q) ≤ 1) :
    (∀ b ∈ polys, b.within p = true →
      group_prices (sjoin_within ((p, v) :: pts) polys) b.code
          = v :: group_prices (sjoin_within pts polys) b.code
        ∧ ∀ c, c ≠ b.code →
            group_prices (sjoin_within ((p, v) :: pts) polys) c
              = group_prices (sjoin_within pts polys) c)
    ∧ ((∀ b ∈ polys, b.within p = false) →
      ∀ c, group_prices (sjoin_within ((p, v) :: pts) polys) c
            = group_prices (sjoin_within pts polys) c) := by
  have hcons : ∀ c, group_prices (sjoin_within ((p, v) :: pts) polys) c
      = group_prices
          (let ms := polys.filter (fun b => b.within p)
           if ms.isEmpty then [(v, none)] else ms.map (fun b => (v, some b.code))) c
        ++ group_prices (sjoin_within pts polys) c := by
    intro c
    simp only [sjoin_within, List.flatMap_cons, group_prices, List.filterMap_append]
  constructor
  · intro b hb hbp
    have hsing := filter_within_singleton (hwf p) hb hbp
    have hblock : (let ms := polys.filter (fun x => x.within p)
        if ms.isEmpty then [(v, none)] else ms.map (fun x => (v, some x.code)))
        = [(v, some b.code)] := by
      rw [hsing]
      rfl
    constructor
    · rw [hcons, hblock]
      simp [group_prices]
    · intro c hc
      rw [hcons, hblock]
      have : ¬ (some b.code = some c) := by
        simpa using fun e => hc e.symm
      simp [group_prices, this]
  · intro hout c
    have hnil : polys.filter (fun x => x.within p) = [] := by
      rw [List.filter_eq_nil_iff]
      intro x hx
      simp [hout x hx]
    rw [hcons]
    rw [hnil]
    simp [group_prices]

/-- Witness for C8: two disjoint half-plane "polygons"; the point `(-1, 0)`
lies only in `"A"`, so its price lands in `"A"`'s group and not in `"B"`'s. -/
theorem C8_witness :
    group_prices (sjoin_within [((-1, 0), 7)]
        [⟨"A", fun q => decide (q.1 < 0)⟩, ⟨"B", fun q => decide (0 < q.1)⟩]) "A"
      = 7 :: group_prices (sjoin_within []
        [⟨"A", fun q => decide (q.1 < 0)⟩, ⟨"B", fun q => decide (0 < q.1)⟩]) "A"
    ∧ group_prices (sjoin_within [((-1, 0), 7)]
        [⟨"A", fun q => decide (q.1 < 0)⟩, ⟨"B", fun q => decide (0 < q.1)⟩]) "B"
      = group_prices (sjoin_within []
        [⟨"A", fun q => decide (q.1 < 0)⟩, ⟨"B", fun q => decide (0 < q.1)⟩]) "B" := by
  have hwf : ∀ q : Pt,
      ([⟨"A", fun q => decide (q.1 < 0)⟩,
        ⟨"B", fun q => decide (0 < q.1)⟩] : List BPoly).countP
        (fun b => b.within q) ≤ 1 := by
    intro q
    rcases lt_trichotomy q.1 0 with h | h | h
    · simp [List.countP_cons, h, not_lt.mpr (le_of_lt h)]
    · simp [List.countP_cons, h]
    · simp [List.countP_cons, h, not_lt.mpr (le_of_lt h)]
  have h := (C8_spatial_join
      [⟨"A", fun q => decide (q.1 < 0)⟩, ⟨"B", fun q => decide (0 < q.1)⟩]
      [] (-1, 0) 7 hwf).1
      ⟨"A", fun q => decide (q.1 < 0)⟩ (List.mem_cons_self _ _) (by norm_num)
  exact ⟨h.1, h.2 "B" (by decide)⟩

/-! ## C3 — failure semantics of the three acquisition tasks -/

/-- Folds with pointwise-equal step functions agree. -/
theorem foldl_congr_fun {α β : Type} {f g : β → α → β} (h : ∀ b a, f b a = g b a) :
    ∀ (l : List α) (i : β), l.foldl f i = l.foldl g i := by
  intro l
  induction l with
  | nil => intro i; rfl
  | cons a t ih =>
    intro i
    simp only [List.foldl_cons, h]
    exact ih (g i a)

/-- A failing quarter call yields the same records as an empty response. -/
theorem fetch_quarter_recover (client : V → Int → Int → Except Unit (List Rec))
    (c : V) (y q : Int) :
    fetch_quarter_recs (recover_tx_client client) c y q
      = fetch_quarter_recs client c y q := by
  cases h : client c y q <;> simp [fetch_quarter_recs, recover_tx_client, h]

/-- The per-municipality quarter loop is unchanged by failure recovery. -/
theorem fetch_muni_year_recover (client : V → Int → Int → Except Unit (List Rec))
    (year : Int) (acc : List Rec × St) (m : Rec) :
    fetch_muni_year (recover_tx_client client) year acc m
      = fetch_muni_year client year acc m := by
  simp only [fetch_muni_year]
  apply foldl_congr_fun
  intro b a
  rw [fetch_quarter_recover]

/-- The error-absorbing municipalities fold: once raised, the exception
propagates past the remaining prefecture codes. -/
theorem muni_fold_absorb (clientM : String → Except Unit (List Rec))
    (l : List String) (e : Unit) :
    l.foldl (muni_step clientM) (.error e) = .error e := by
  induction l with
  | nil => rfl
  | cons pc t ih => simpa [muni_step] using ih

/-- If any prefecture code in the loop fails, the whole municipalities fold
raises. -/
theorem muni_fold_error (clientM : String → Except Unit (List Rec)) :
    ∀ (l : List String) (recs : List Rec) (st : St),
      (∃ pc ∈ l, clientM pc = .error ()) →
      l.foldl (muni_step clientM) (.ok (recs, st)) = .error () := by
  intro l
  induction l with
  | nil => simp
  | cons pc t ih =>
    intro recs st hex
    simp only [List.foldl_cons]
    cases hc : clientM pc with
    | error e =>
      have hstep : muni_step clientM (.ok (recs, st)) pc = .error () := by
        simp [muni_step, hc]
      rw [hstep, muni_fold_absorb]
    | ok data =>
      have hstep : muni_step clientM (.ok (recs, st)) pc
          = .ok (recs ++ data, bump st) := by
        simp [muni_step, hc]
      rw [hstep]
      obtain ⟨pc', hpc', herr⟩ := hex
      rcases List.mem_cons.mp hpc' with rfl | hmem
      · rw [hc] at herr
        cases herr
      · exact ih _ _ ⟨pc', hmem, herr⟩

/-- Counterexample to C3 as stated: in `fetch_municipalities` the client call
has no try/except, so a single failing prefecture fetch aborts the whole
catalog task (first conjunct), while the identical run with that call
succeeding returns normally (second conjunct). -/
theorem C3_counterexample :
    fetch_municipalities id
        (fun pc => if pc = "02" then .error () else .ok []) ⟨[], 0⟩
      = .error ()
    ∧ fetch_municipalities id (fun _ => .ok []) ⟨[], 0⟩
      = .ok ([], write_cache ⟨[], 47⟩ (muni_key id) []) := by
  constructor <;> rfl

/-- C3 (amended): for the transactions and appraisals tasks, the failure of
any single external fetch call is caught, contributes zero records, and never
aborts the enclosing chunk — a chunk run with a partially-failing client
equals the run where those calls return no data; for the administrative-unit
catalog task, however, a failing prefecture fetch propagates and aborts the
task. -/
theorem C3_failure_semantics (hashf : String → String)
    (clientM : String → Except Unit (List Rec))
    (client : V → Int → Int → Except Unit (List Rec))
    (clientG : Int → ℕ → ℤ → ℤ → Except Unit (List Feature))
    (d2t : ℚ → ℚ → ℕ → ℤ × ℤ) (stM : St)
    (hmiss : read_cache stM (muni_key hashf) = none)
    (hfail : ∃ pc ∈ PREF_CODES, clientM pc = .error ()) :
    fetch_municipalities hashf clientM stM = .error ()
    ∧ (∀ (ms : List Rec) (year : Int) (st : St),
        fetch_year_chunk (recover_tx_client client) ms year st
          = fetch_year_chunk client ms year st)
    ∧ (∀ (region : Region) (year : Int) (st : St),
        scan_tiles_for_region d2t (recover_geo_client clientG) region year st
          = scan_tiles_for_region d2t clientG region year st) := by
  refine ⟨?_, ?_, ?_⟩
  · simp only [fetch_municipalities, hmiss]
    rw [muni_fold_error clientM PREF_CODES [] stM hfail]
  · intro ms year st
    simp only [fetch_year_chunk]
    apply foldl_congr_fun
    intro b a
    rw [fetch_muni_year_recover]
  · intro region year st
    simp only [scan_tiles_for_region]
    apply foldl_congr_fun
    intro b a
    cases h : clientG year TILE_ZOOM a.1 a.2 <;>
      simp [recover_geo_client, h]

/-- Witness for C3 with an always-failing client and an empty cache. -/
theorem C3_witness :
    fetch_municipalities id (fun _ => .error ()) ⟨[], 0⟩ = .error ()
    ∧ fetch_year_chunk (recover_tx_client (fun _ _ _ => .error ())) [] 2022 ⟨[], 0⟩
        = fetch_year_chunk (fun _ _ _ => .error ()) [] 2022 ⟨[], 0⟩ := by
  have h := C3_failure_semantics id (fun _ => .error ()) (fun _ _ _ => .error ())
    (fun _ _ _ _ => .error ()) (fun _ _ _ => (0, 0)) ⟨[], 0⟩ rfl
    ⟨"01", by decide, rfl⟩
  exact ⟨h.1, h.2.1 [] 2022 ⟨[], 0⟩⟩

/-! ## C7 — top-level cache short-circuit and idempotent reruns -/

/-- After any transactions run, the top-level key resolves to exactly the
returned payload: either the run short-circuited on it, or it wrote it last. -/
theorem tx_run_allkey (hashf : String → String)
    (client : V → Int → Int → Except Unit (List Rec)) (munis : List Rec)
    (st₀ : St) :
    read_cache (fetch_all_transactions hashf client munis st₀).2 (tx_all_key hashf)
      = some (fetch_all_transactions hashf client munis st₀).1 := by
  cases h : read_cache st₀ (tx_all_key hashf) with
  | some c => simp only [fetch_all_transactions, h]
  | none =>
    simp only [fetch_all_transactions, h]
    exact read_write_cache_same _ _ _

/-- After any official-prices run, the top-level key resolves to exactly the
returned payload. -/
theorem op_run_allkey (d2t : ℚ → ℚ → ℕ → ℤ × ℤ) (hashf : String → String)
    (clientG : Int → ℕ → ℤ → ℤ → Except Unit (List Feature)) (st₀ : St) :
    read_cache (fetch_official_prices d2t hashf clientG st₀).2 (official_all_key hashf)
      = some (fetch_official_prices d2t hashf clientG st₀).1 := by
  cases h : read_cache st₀ (official_all_key hashf) with
  | some c => simp only [fetch_official_prices, h]
  | none =>
    simp only [fetch_official_prices, h]
    exact read_write_cache_same _ _ _

/-- C7: when the cache already holds a task's top-level key, the task's fetch
returns exactly that payload with the state (hence the external-call counter)
unchanged — zero external calls; consequently a second run after any
completed run returns the first run's output and state identically. -/
theorem C7_idempotent_resume (hashf : String → String)
    (client : V → Int → Int → Except Unit (List Rec))
    (clientG : Int → ℕ → ℤ → ℤ → Except Unit (List Feature))
    (d2t : ℚ → ℚ → ℕ → ℤ × ℤ) (munis : List Rec) (st stG : St)
    (p pG : List Rec)
    (hp : read_cache st (tx_all_key hashf) = some p)
    (hg : read_cache stG (official_all_key hashf) = some pG) :
    fetch_all_transactions hashf client munis st = (p, st)
    ∧ fetch_official_prices d2t hashf clientG stG = (pG, stG)
    ∧ (∀ st₀ : St,
        fetch_all_transactions hashf client munis
            (fetch_all_transactions hashf client munis st₀).2
          = fetch_all_transactions hashf client munis st₀)
    ∧ (∀ st₀ : St,
        fetch_official_prices d2t hashf clientG
            (fetch_official_prices d2t hashf clientG st₀).2
          = fetch_official_prices d2t hashf clientG st₀) := by
  refine ⟨?_, ?_, ?_, ?_⟩
  · simp only [fetch_all_transactions, hp]
  · simp only [fetch_official_prices, hg]
  · intro st₀
    have hk := tx_run_allkey hashf client munis st₀
    rcases hEq : fetch_all_transactions hashf client munis st₀ with ⟨out, st1⟩
    rw [hEq] at hk
    simp only [fetch_all_transactions, hk]
  · intro st₀
    have hk := op_run_allkey d2t hashf clientG st₀
    rcases hEq : fetch_official_prices d2t hashf clientG st₀ with ⟨out, st1⟩
    rw [hEq] at hk
    simp only [fetch_official_prices, hk]

/-- Witness for C7: both tasks short-circuit on a cache holding their
top-level keys and return the cached payloads with the state untouched. -/
theorem C7_witness :
    fetch_all_transactions id (fun _ _ _ => .ok []) []
        (write_cache ⟨[], 0⟩ (tx_all_key id) [])
      = ([], write_cache ⟨[], 0⟩ (tx_all_key id) [])
    ∧ fetch_official_prices (fun _ _ _ => (0, 0)) id (fun _ _ _ _ => .ok [])
        (write_cache ⟨[], 0⟩ (official_all_key id) [])
      = ([], write_cache ⟨[], 0⟩ (official_all_key id) []) := by
  have h := C7_idempotent_resume id (fun _ _ _ => .ok []) (fun _ _ _ _ => .ok [])
    (fun _ _ _ => (0, 0)) [] (write_cache ⟨[], 0⟩ (tx_all_key id) [])
    (write_cache ⟨[], 0⟩ (official_all_key id) []) [] []
    (read_write_cache_same _ _ _) (read_write_cache_same _ _ _)
  exact ⟨h.1, h.2.1⟩

/-! ## C2 — old-scheme cache migration -/

/-- Membership through the seen-accumulator worker. -/
theorem mem_erase_dups_first_go {α : Type} [DecidableEq α] :
    ∀ (l seen : List α) (x : α),
      x ∈ erase_dups_first_go seen l ↔ (x ∈ l ∧ x ∉ seen) := by
  intro l
  induction l with
  | nil => intro seen x; simp [erase_dups_first_go]
  | cons a t ih =>
    intro seen x
    simp only [erase_dups_first_go]
    by_cases ha : a ∈ seen
    · rw [if_pos ha, ih]
      constructor
      · rintro ⟨hx, hs⟩
        exact ⟨List.mem_cons_of_mem _ hx, hs⟩
      · rintro ⟨hx, hs⟩
        rcases List.mem_cons.mp hx with rfl | hx
        · exact absurd ha hs
        · exact ⟨hx, hs⟩
    · rw [if_neg ha]
      simp only [List.mem_cons, ih]
      constructor
      · rintro (rfl | ⟨hx, hs⟩)
        · exact ⟨Or.inl rfl, ha⟩
        · exact ⟨Or.inr hx, fun hm => hs (Or.inr hm)⟩
      · rintro ⟨rfl | hx, hs⟩
        · exact Or.inl rfl
        · by_cases hxa : x = a
          · exact Or.inl hxa
          · exact Or.inr ⟨hx, fun hm => hm.elim hxa hs⟩

/-- `erase_dups_first` preserves membership. -/
theorem mem_erase_dups_first {α : Type} [DecidableEq α] (l : List α) (x : α) :
    x ∈ erase_dups_first l ↔ x ∈ l := by
  rw [erase_dups_first, mem_erase_dups_first_go]
  simp

/-- The seen-accumulator worker emits no duplicates. -/
theorem nodup_erase_dups_first_go {α : Type} [DecidableEq α] :
    ∀ (l seen : List α), (erase_dups_first_go seen l).Nodup := by
  intro l
  induction l with
  | nil => intro seen; simp [erase_dups_first_go]
  | cons a t ih =>
    intro seen
    simp only [erase_dups_first_go]
    by_cases ha : a ∈ seen
    · rw [if_pos ha]
      exact ih seen
    · rw [if_neg ha]
      refine List.nodup_cons.mpr ⟨?_, ih _⟩
      intro hmem
      have := (mem_erase_dups_first_go t (a :: seen) a).mp hmem
      simp at this

/-- `erase_dups_first` removes every duplicate. -/
theorem nodup_erase_dups_first {α : Type} [DecidableEq α] (l : List α) :
    (erase_dups_first l).Nodup :=
  nodup_erase_dups_first_go l []

/-- Folds whose steps preserve the call counter preserve it overall. -/
theorem foldl_calls_preserved {f : St → Int → St}
    (hf : ∀ s y, (f s y).calls = s.calls) :
    ∀ (l : List Int) (st : St), (l.foldl f st).calls = st.calls := by
  intro l
  induction l with
  | nil => intro st; rfl
  | cons y t ih =>
    intro st
    rw [List.foldl_cons, ih, hf]

/-- Pointwise-equal functions give equal `flatMap`s. -/
theorem flatMap_congr_mem {α β : Type} {f g : α → List β} :
    ∀ (l : List α), (∀ a ∈ l, f a = g a) → l.flatMap f = l.flatMap g := by
  intro l
  induction l with
  | nil => intro _; rfl
  | cons a t ih =>
    intro h
    simp only [List.flatMap_cons]
    rw [h a (List.mem_cons_self _ _), ih (fun x hx => h x (List.mem_cons_of_mem _ hx))]

/-- Partitioning a record list by the (unique) discriminant value each record
is assigned to, then concatenating the cells over the distinct discriminant
values, permutes the original list. -/
theorem flatMap_filter_perm {f : Rec → Option Int} :
    ∀ (ys : List Int) (l : List Rec), ys.Nodup →
      (∀ r ∈ l, ∃ y ∈ ys, f r = some y) →
      (ys.flatMap (fun y => l.filter (fun r => decide (f r = some y)))).Perm l := by
  intro ys
  induction ys with
  | nil =>
    intro l _ hcov
    cases l with
    | nil => simp
    | cons r t =>
      obtain ⟨y, hy, _⟩ := hcov r (List.mem_cons_self _ _)
      simp at hy
  | cons y ys' ih =>
    intro l hnd hcov
    have hynot : y ∉ ys' := (List.nodup_cons.mp hnd).1
    have hnd' : ys'.Nodup := (List.nodup_cons.mp hnd).2
    simp only [List.flatMap_cons]
    have hstep : ∀ y' ∈ ys',
        l.filter (fun r => decide (f r = some y'))
          = (l.filter (fun r => !decide (f r = some y))).filter
              (fun r => decide (f r = some y')) := by
      intro y' hy'
      have hne : y' ≠ y := fun e => hynot (e ▸ hy')
      rw [List.filter_filter]
      apply List.filter_congr
      intro r _
      by_cases hr : f r = some y'
      · have : ¬ (f r = some y) := by
          rw [hr]
          simp [hne]
        simp [hr, this, hne]
      · simp [hr]
    have hrw : ys'.flatMap (fun y' => l.filter (fun r => decide (f r = some y')))
        = ys'.flatMap (fun y' =>
            (l.filter (fun r => !decide (f r = some y))).filter
              (fun r => decide (f r = some y'))) :=
      flatMap_congr_mem ys' hstep
    rw [hrw]
    have hcov' : ∀ r ∈ l.filter (fun r => !decide (f r = some y)),
        ∃ y' ∈ ys', f r = some y' := by
      intro r hr
      obtain ⟨hrl, hry⟩ := List.mem_filter.mp hr
      obtain ⟨y'', hy'', hfy⟩ := hcov r hrl
      rcases List.mem_cons.mp hy'' with rfl | hmem
      · simp [hfy] at hry
      · exact ⟨y'', hmem, hfy⟩
    have hperm' := ih (l.filter (fun r => !decide (f r = some y))) hnd' hcov'
    calc l.filter (fun r => decide (f r = some y))
          ++ ys'.flatMap (fun y' =>
              (l.filter (fun r => !decide (f r = some y))).filter
                (fun r => decide (f r = some y')))
        ~ l.filter (fun r => decide (f r = some y))
            ++ l.filter (fun r => !decide (f r = some y)) :=
          hperm'.append_left _
      _ ~ l := List.filter_append_perm _ l

/-- The migration's write-if-absent fold leaves every key other than its year
keys untouched. -/
theorem migrate_fold_other (hashf : String → String) (pre : String)
    (old_years : List Int) (old : List Rec) (k : String) :
    ∀ (l : List Int) (st : St), (∀ y ∈ l, tx_year_key hashf pre y ≠ k) →
      read_cache (l.foldl (fun st y =>
          match read_cache st (tx_year_key hashf pre y) with
          | none => write_cache st (tx_year_key hashf pre y)
              (by_year_records old_years old y)
          | some _ => st) st) k
        = read_cache st k := by
  intro l
  induction l with
  | nil => intro st _; rfl
  | cons y₀ t ih =>
    intro st hne
    rw [List.foldl_cons]
    have hstep : read_cache
        (match read_cache st (tx_year_key hashf pre y₀) with
         | none => write_cache st (tx_year_key hashf pre y₀)
             (by_year_records old_years old y₀)
         | some _ => st) k = read_cache st k := by
      cases h : read_cache st (tx_year_key hashf pre y₀) with
      | none =>
        exact read_write_cache_other st _ k _
          (fun e => hne y₀ (List.mem_cons_self _ _) e.symm)
      | some v => rfl
    rw [ih _ (fun y hy => hne y (List.mem_cons_of_mem _ hy)), hstep]

/-- The migration's write-if-absent fold gives each of its (distinct-keyed)
years the pre-existing chunk if there was one, else the freshly split
records. -/
theorem migrate_fold_mem (hashf : String → String) (pre : String)
    (old_years : List Int) (old : List Rec) :
    ∀ (l : List Int) (st : St) (y : Int), y ∈ l → l.Nodup →
      (∀ a ∈ l, ∀ b ∈ l, a ≠ b → tx_year_key hashf pre a ≠ tx_year_key hashf pre b) →
      read_cache (l.foldl (fun st y =>
          match read_cache st (tx_year_key hashf pre y) with
          | none => write_cache st (tx_year_key hashf pre y)
              (by_year_records old_years old y)
          | some _ => st) st) (tx_year_key hashf pre y)
        = some ((read_cache st (tx_year_key hashf pre y)).getD
            (by_year_records old_years old y)) := by
  intro l
  induction l with
  | nil => intro st y hy; simp at hy
  | cons y₀ t ih =>
    intro st y hy hnd hinj
    have hy₀t : y₀ ∉ t := (List.nodup_cons.mp hnd).1
    rw [List.foldl_cons]
    rcases List.mem_cons.mp hy with rfl | hyt
    · have hothers : ∀ y' ∈ t, tx_year_key hashf pre y' ≠ tx_year_key hashf pre y :=
        fun y' hy' => hinj y' (List.mem_cons_of_mem _ hy') y
          (List.mem_cons_self _ _) (fun e => hy₀t (e ▸ hy'))
      rw [migrate_fold_other hashf pre old_years old _ t _ hothers]
      cases h : read_cache st (tx_year_key hashf pre y) with
      | none => simp [h, read_write_cache_same]
      | some v => simp [h]
    · have hne : tx_year_key hashf pre y₀ ≠ tx_year_key hashf pre y :=
        hinj y₀ (List.mem_cons_self _ _) y (List.mem_cons_of_mem _ hyt)
          (fun e => hy₀t (e ▸ hyt))
      have hstep : read_cache
          (match read_cache st (tx_year_key hashf pre y₀) with
           | none => write_cache st (tx_year_key hashf pre y₀)
               (by_year_records old_years old y₀)
           | some _ => st) (tx_year_key hashf pre y)
          = read_cache st (tx_year_key hashf pre y) := by
        cases h : read_cache st (tx_year_key hashf pre y₀) with
        | none => exact read_write_cache_other st _ _ _ (fun e => hne e.symm)
        | some v => rfl
      rw [ih _ y hyt (List.nodup_cons.mp hnd).2
        (fun a ha b hb => hinj a (List.mem_cons_of_mem _ ha) b
          (List.mem_cons_of_mem _ hb)), hstep]

/-- The assigned year of a record is always drawn from the year group. -/
theorem first_match_year_mem {old_years : List Int} {r : Rec} {y : Int}
    (h : first_match_year old_years r = some y) : y ∈ old_years :=
  List.mem_of_find?_eq_some h

/-- Counterexample to C2 as stated: an old-scheme chunk whose records span
2022, 2023 and 2024 but interleave the years.  Migration splits it into the
three per-year chunks below, yet NO concatenation order of those chunks
equals the old payload (the two 2023 records enclose the 2022 record in the
original order), so "the concatenation of the new chunks' payloads equals the
old chunk's payload" fails; the payloads agree only up to permutation. -/
theorem C2_counterexample :
    read_cache
        (migrate_old_pref_cache id "13"
          (write_cache ⟨[], 0⟩ (tx_old_key id "13" tx_old_years)
            [[("Period", V.str "2023年第1四半期"), ("id", V.num 1)],
             [("Period", V.str "2022年第1四半期"), ("id", V.num 2)],
             [("Period", V.str "2023年第2四半期"), ("id", V.num 3)],
             [("Period", V.str "2024年第1四半期"), ("id", V.num 4)]]))
        (tx_year_key id "13" 2022)
      = some [[("Period", V.str "2022年第1四半期"), ("id", V.num 2)]]
    ∧ read_cache
        (migrate_old_pref_cache id "13"
          (write_cache ⟨[], 0⟩ (tx_old_key id "13" tx_old_years)
            [[("Period", V.str "2023年第1四半期"), ("id", V.num 1)],
             [("Period", V.str "2022年第1四半期"), ("id", V.num 2)],
             [("Period", V.str "2023年第2四半期"), ("id", V.num 3)],
             [("Period", V.str "2024年第1四半期"), ("id", V.num 4)]]))
        (tx_year_key id "13" 2023)
      = some [[("Period", V.str "2023年第1四半期"), ("id", V.num 1)],
              [("Period", V.str "2023年第2四半期"), ("id", V.num 3)]]
    ∧ read_cache
        (migrate_old_pref_cache id "13"
          (write_cache ⟨[], 0⟩ (tx_old_key id "13" tx_old_years)
            [[("Period", V.str "2023年第1四半期"), ("id", V.num 1)],
             [("Period", V.str "2022年第1四半期"), ("id", V.num 2)],
             [("Period", V.str "2023年第2四半期"), ("id", V.num 3)],
             [("Period", V.str "2024年第1四半期"), ("id", V.num 4)]]))
        (tx_year_key id "13" 2024)
      = some [[("Period", V.str "2024年第1四半期"), ("id", V.num 4)]]
    ∧ ([[0, 1, 2], [0, 2, 1], [1, 0, 2], [1, 2, 0], [2, 0, 1], [2, 1, 0]].all
        (fun order => !decide ((order.flatMap
            (fun i => ([[[("Period", V.str "2022年第1四半期"), ("id", V.num 2)]],
                        [[("Period", V.str "2023年第1四半期"), ("id", V.num 1)],
                         [("Period", V.str "2023年第2四半期"), ("id", V.num 3)]],
                        [[("Period", V.str "2024年第1四半期"), ("id", V.num 4)]]] :
                        List (List Rec)).getD i [])) =
            [[("Period", V.str "2023年第1四半期"), ("id", V.num 1)],
             [("Period", V.str "2022年第1四半期"), ("id", V.num 2)],
             [("Period", V.str "2023年第2四半期"), ("id", V.num 3)],
             [("Period", V.str "2024年第1四半期"), ("id", V.num 4)]]))) = true := by
  have hold : read_cache
      (write_cache ⟨[], 0⟩ (tx_old_key id "13" tx_old_years)
        [[("Period", V.str "2023年第1四半期"), ("id", V.num 1)],
         [("Period", V.str "2022年第1四半期"), ("id", V.num 2)],
         [("Period", V.str "2023年第2四半期"), ("id", V.num 3)],
         [("Period", V.str "2024年第1四半期"), ("id", V.num 4)]])
      (tx_old_key id "13" tx_old_years)
      = some [[("Period", V.str "2023年第1四半期"), ("id", V.num 1)],
              [("Period", V.str "2022年第1四半期"), ("id", V.num 2)],
              [("Period", V.str "2023年第2四半期"), ("id", V.num 3)],
              [("Period", V.str "2024年第1四半期"), ("id", V.num 4)]] :=
    read_write_cache_same _ _ _
  have hys : first_seen_years tx_old_years
      [[("Period", V.str "2023年第1四半期"), ("id", V.num 1)],
       [("Period", V.str "2022年第1四半期"), ("id", V.num 2)],
       [("Period", V.str "2023年第2四半期"), ("id", V.num 3)],
       [("Period", V.str "2024年第1四半期"), ("id", V.num 4)]]
      = [2023, 2022, 2024] := by decide
  have hinj : ∀ a ∈ [(2023 : Int), 2022, 2024], ∀ b ∈ [(2023 : Int), 2022, 2024],
      a ≠ b → tx_year_key id "13" a ≠ tx_year_key id "13" b := by decide
  have hread : ∀ y ∈ [(2023 : Int), 2022, 2024],
      read_cache
        (migrate_old_pref_cache id "13"
          (write_cache ⟨[], 0⟩ (tx_old_key id "13" tx_old_years)
            [[("Period", V.str "2023年第1四半期"), ("id", V.num 1)],
             [("Period", V.str "2022年第1四半期"), ("id", V.num 2)],
             [("Period", V.str "2023年第2四半期"), ("id", V.num 3)],
             [("Period", V.str "2024年第1四半期"), ("id", V.num 4)]]))
        (tx_year_key id "13" y)
      = some ((read_cache
          (write_cache ⟨[], 0⟩ (tx_old_key id "13" tx_old_years)
            [[("Period", V.str "2023年第1四半期"), ("id", V.num 1)],
             [("Period", V.str "2022年第1四半期"), ("id", V.num 2)],
             [("Period", V.str "2023年第2四半期"), ("id", V.num 3)],
             [("Period", V.str "2024年第1四半期"), ("id", V.num 4)]])
          (tx_year_key id "13" y)).getD
          (by_year_records tx_old_years
            [[("Period", V.str "2023年第1四半期"), ("id", V.num 1)],
             [("Period", V.str "2022年第1四半期"), ("id", V.num 2)],
             [("Period", V.str "2023年第2四半期"), ("id", V.num 3)],
             [("Period", V.str "2024年第1四半期"), ("id", V.num 4)]] y)) := by
    intro y hy
    have hunfold : migrate_old_pref_cache id "13"
        (write_cache ⟨[], 0⟩ (tx_old_key id "13" tx_old_years)
          [[("Period", V.str "2023年第1四半期"), ("id", V.num 1)],
           [("Period", V.str "2022年第1四半期"), ("id", V.num 2)],
           [("Period", V.str "2023年第2四半期"), ("id", V.num 3)],
           [("Period", V.str "2024年第1四半期"), ("id", V.num 4)]])
        = migrate_one id "13" tx_old_years
          (write_cache ⟨[], 0⟩ (tx_old_key id "13" tx_old_years)
            [[("Period", V.str "2023年第1四半期"), ("id", V.num 1)],
             [("Period", V.str "2022年第1四半期"), ("id", V.num 2)],
             [("Period", V.str "2023年第2四半期"), ("id", V.num 3)],
             [("Period", V.str "2024年第1四半期"), ("id", V.num 4)]]) := by
      simp [migrate_old_pref_cache]
    rw [hunfold]
    simp only [migrate_one, hold, hys]
    exact migrate_fold_mem id "13" tx_old_years _ _ _ y hy (by decide) hinj
  have hnone : ∀ y ∈ [(2023 : Int), 2022, 2024],
      read_cache
        (write_cache ⟨[], 0⟩ (tx_old_key id "13" tx_old_years)
          [[("Period", V.str "2023年第1四半期"), ("id", V.num 1)],
           [("Period", V.str "2022年第1四半期"), ("id", V.num 2)],
           [("Period", V.str "2023年第2四半期"), ("id", V.num 3)],
           [("Period", V.str "2024年第1四半期"), ("id", V.num 4)]])
        (tx_year_key id "13" y) = none := by
    intro y hy
    rw [read_write_cache_other]
    · rfl
    · fin_cases hy <;> decide
  refine ⟨?_, ?_, ?_, by decide⟩
  · rw [hread 2022 (by decide), hnone 2022 (by decide)]
    decide
  · rw [hread 2023 (by decide), hnone 2023 (by decide)]
    decide
  · rw [hread 2024 (by decide), hnone 2024 (by decide)]
    decide

/-- C2 (amended): migrating an old-scheme chunk issues no external call,
gives every year that occurs in the old records a new-scheme chunk — the
pre-existing chunk if one exists (never overwritten), else exactly the old
records assigned to that year in their original relative order — and, when
every old record is assigned to some year of the group, the concatenation
of the per-year payloads is a permutation of the old payload: no record is
duplicated or dropped, though the concatenation need not reproduce the old
order. -/
theorem C2_migration (hashf : String → String) (pre : String) (st : St)
    (old : List Rec)
    (hold : read_cache st (tx_old_key hashf pre tx_old_years) = some old)
    (hinj : ∀ a ∈ tx_old_years, ∀ b ∈ tx_old_years, a ≠ b →
      tx_year_key hashf pre a ≠ tx_year_key hashf pre b) :
    (migrate_old_pref_cache hashf pre st).calls = st.calls
    ∧ (∀ y ∈ tx_old_years,
        (∃ r ∈ old, first_match_year tx_old_years r = some y) →
        read_cache (migrate_old_pref_cache hashf pre st) (tx_year_key hashf pre y)
          = some ((read_cache st (tx_year_key hashf pre y)).getD
              (by_year_records tx_old_years old y)))
    ∧ ((∀ r ∈ old, (first_match_year tx_old_years r).isSome) →
        (tx_old_years.flatMap (by_year_records tx_old_years old)).Perm old) := by
  have hunfold : migrate_old_pref_cache hashf pre st
      = migrate_one hashf pre tx_old_years st := by
    simp [migrate_old_pref_cache]
  refine ⟨?_, ?_, ?_⟩
  · rw [hunfold]
    simp only [migrate_one, hold]
    apply foldl_calls_preserved
    intro s y
    cases h : read_cache s (tx_year_key hashf pre y) with
    | none => simp [h, write_cache_calls]
    | some v => simp [h]
  · intro y _ hex
    rw [hunfold]
    simp only [migrate_one, hold]
    have hys : y ∈ first_seen_years tx_old_years old := by
      rw [first_seen_years, mem_erase_dups_first]
      obtain ⟨r, hr, hfy⟩ := hex
      exact List.mem_filterMap.mpr ⟨r, hr, hfy⟩
    have hsub : ∀ z ∈ first_seen_years tx_old_years old, z ∈ tx_old_years := by
      intro z hz
      rw [first_seen_years, mem_erase_dups_first] at hz
      obtain ⟨r, _, hfz⟩ := List.mem_filterMap.mp hz
      exact first_match_year_mem hfz
    exact migrate_fold_mem hashf pre tx_old_years old _ st y hys
      (nodup_erase_dups_first _)
      (fun a ha b hb => hinj a (hsub a ha) b (hsub b hb))
  · intro hcov
    apply flatMap_filter_perm tx_old_years old (by decide)
    intro r hr
    obtain ⟨y, hy⟩ := Option.isSome_iff_exists.mp (hcov r hr)
    exact ⟨y, first_match_year_mem hy, hy⟩

/-- Witness for C2 with a three-record old chunk spanning the group. -/
theorem C2_witness :
    (migrate_old_pref_cache id "07"
        (write_cache ⟨[], 5⟩ (tx_old_key id "07" tx_old_years)
          [[("Period", V.str "2023Q1")], [("Period", V.str "2022Q3")],
           [("Period", V.str "2024Q2")]])).calls = 5
    ∧ read_cache
        (migrate_old_pref_cache id "07"
          (write_cache ⟨[], 5⟩ (tx_old_key id "07" tx_old_years)
            [[("Period", V.str "2023Q1")], [("Period", V.str "2022Q3")],
             [("Period", V.str "2024Q2")]]))
        (tx_year_key id "07" 2023)
      = some [[("Period", V.str "2023Q1")]]
    ∧ (tx_old_years.flatMap (by_year_records tx_old_years
        [[("Period", V.str "2023Q1")], [("Period", V.str "2022Q3")],
         [("Period", V.str "2024Q2")]])).Perm
        [[("Period", V.str "2023Q1")], [("Period", V.str "2022Q3")],
         [("Period", V.str "2024Q2")]] := by
  have h := C2_migration id "07"
    (write_cache ⟨[], 5⟩ (tx_old_key id "07" tx_old_years)
      [[("Period", V.str "2023Q1")], [("Period", V.str "2022Q3")],
       [("Period", V.str "2024Q2")]])
    [[("Period", V.str "2023Q1")], [("Period", V.str "2022Q3")],
     [("Period", V.str "2024Q2")]]
    (read_write_cache_same _ _ _) (by decide)
  refine ⟨h.1, ?_, h.2.2 (by decide)⟩
  have hb := h.2.1 2023 (by decide)
    ⟨[("Period", V.str "2023Q1")], by decide, by decide⟩
  rw [hb]
  decide
